import Mathlib

/-!
Shallow embedding of the collaborative-whiteboard repository
(server/server.ts together with the client Whiteboard component) and
theorems about its relay protocol, room lifecycle and client history.

Conventions of the embedding:
  - the in-memory Map of rooms is an insertion-ordered association list;
  - Date values are natural numbers (milliseconds);
  - socket.io room membership is a list of (socketId, roomName) pairs,
    and the pool of live connections is a list of socket ids;
  - an event handler is a function from server state (plus the current
    time and the sending socket id) to the new state paired with the
    list of (recipient, message) emissions it performs;
  - JavaScript truthiness of a string-or-null value is made explicit
    (null and the empty string are falsy);
  - rasterisation of drawing operations is outside the modelled core,
    so a rendered surface is represented by the list of drawing
    operations it shows, and an ImageData / data-URL capture of the
    canvas is represented by that same list.
-/

set_option maxRecDepth 4000

/-- UserData, as in server.ts: one membership record inside a room. -/
structure UserData where
  id : String
  name : String
  joinedAt : Nat
deriving DecidableEq, Repr

/-- RoomData, as in server.ts. -/
structure RoomData where
  id : String
  name : String
  isPrivate : Bool
  createdAt : Nat
  users : List UserData
  canvasData : Option String
  lastActivity : Option Nat
deriving DecidableEq, Repr

/-- A drawing payload: the fields of the client DrawingData interface. -/
structure DrawingData where
  x : Int
  y : Int
  prevX : Option Int := none
  prevY : Option Int := none
  color : String
  tool : String
  brushSize : Nat
  isDrawing : Option Bool := none
  text : Option String := none
deriving DecidableEq, Repr

/-- The payload of a drawing socket event: the server only ever reads
the roomId field and forwards the whole object. -/
structure DrawPayload where
  roomId : Option String
  d : DrawingData
deriving DecidableEq, Repr

/-- The value a clear-canvas event can carry on the wire: an object
with an optional roomId, a bare string, or nothing (undefined). -/
inductive ClearPayload where
  | obj (roomId : Option String)
  | str (s : String)
  | undef
deriving DecidableEq, Repr

/-- JavaScript data?.roomId on a ClearPayload: reading the roomId
property of a string or of undefined yields undefined. -/
def extractClearRoomId : ClearPayload → Option String
  | ClearPayload.obj r => r
  | ClearPayload.str _ => none
  | ClearPayload.undef => none

/-- Server-to-client messages emitted by server.ts. -/
inductive SMsg where
  | roomJoined (roomId roomName : String) (users : List UserData)
  | roomError (message requestedRoom : String) (availableRooms : List String)
  | loadCanvas (data : String)
  | userJoined (user : UserData) (users : List UserData)
  | userLeft (user : Option UserData) (users : List UserData)
  | drawing (p : DrawPayload)
  | clearDirective
  | undoSignal
  | redoSignal
deriving DecidableEq, Repr

/-- The whole server state: the rooms Map, socket.io room membership,
and the pool of connected sockets. -/
structure ServerState where
  rooms : List (String × RoomData)
  sockRooms : List (String × String)
  connected : List String
deriving DecidableEq, Repr

/-- rooms.get on the association list. -/
def lookupRoom : List (String × RoomData) → String → Option RoomData
  | [], _ => none
  | p :: ps, k => if p.1 = k then some p.2 else lookupRoom ps k

/-- Pointwise rewrite of every entry, keys unchanged (in-place object
mutation of rooms fetched from the Map). -/
def mapRooms (m : List (String × RoomData)) (f : String → RoomData → RoomData) :
    List (String × RoomData) :=
  m.map (fun p => (p.1, f p.1 p.2))

/-- Mutate the room stored under one key, if present (the
rooms.get-then-mutate idiom of server.ts). -/
def adjustRoom (m : List (String × RoomData)) (k : String) (g : RoomData → RoomData) :
    List (String × RoomData) :=
  mapRooms m (fun j r => if j = k then g r else r)

/-- rooms.delete. -/
def eraseRoom : List (String × RoomData) → String → List (String × RoomData)
  | [], _ => []
  | p :: ps, k => if p.1 = k then eraseRoom ps k else p :: eraseRoom ps k

/-- rooms.has. -/
def hasRoom (m : List (String × RoomData)) (k : String) : Bool :=
  (lookupRoom m k).isSome

/-- rooms.set: replace the entry if the key is present, append otherwise. -/
def setRoom (m : List (String × RoomData)) (k : String) (v : RoomData) :
    List (String × RoomData) :=
  if hasRoom m k then mapRooms m (fun j r => if j = k then v else r) else m ++ [(k, v)]

/-- Array.from(rooms.keys()). -/
def roomKeys (m : List (String × RoomData)) : List String :=
  m.map Prod.fst

/-- The sockets currently joined to a given socket.io room. -/
def sockMembers (sr : List (String × String)) (roomName : String) : List String :=
  (sr.filter (fun q => q.2 = roomName)).map Prod.fst

/-- socket.to(roomName): the members of the socket.io room other than
the sender. -/
def sockOthers (sr : List (String × String)) (roomName sender : String) : List String :=
  (sockMembers sr roomName).filter (fun x => x ≠ sender)

/-- socket.join, which is idempotent. -/
def sockJoin (sr : List (String × String)) (sid roomName : String) :
    List (String × String) :=
  if (sid, roomName) ∈ sr then sr else sr ++ [(sid, roomName)]

/-- Handler of the drawing event (server.ts lines 221-240): with a
roomId, relay to the other sockets of that socket.io room and refresh
the registered room; without one, fall back to a global broadcast. -/
def handleDrawing (st : ServerState) (now : Nat) (sender : String) (p : DrawPayload) :
    ServerState × List (String × SMsg) :=
  match p.roomId with
  | some roomId =>
      let rooms2 := adjustRoom st.rooms roomId (fun rm => { rm with lastActivity := some now })
      ({ st with rooms := rooms2 },
       (sockOthers st.sockRooms roomId sender).map (fun x => (x, SMsg.drawing p)))
  | none =>
      (st, (st.connected.filter (fun x => x ≠ sender)).map (fun x => (x, SMsg.drawing p)))

/-- A concrete state for checking the drawing relay: room R1 is
registered, sockets a and b are its members, socket c is a third
connection outside the room. -/
def roomA : RoomData :=
  { id := "R1", name := "w", isPrivate := false, createdAt := 0,
    users := [{ id := "a", name := "alice", joinedAt := 0 },
              { id := "b", name := "bob", joinedAt := 0 }],
    canvasData := none, lastActivity := some 0 }

def stA : ServerState :=
  { rooms := [("R1", roomA)],
    sockRooms := [("a", "R1"), ("b", "R1")],
    connected := ["a", "b", "c"] }

def pA : DrawPayload :=
  { roomId := some "R1",
    d := { x := 1, y := 2, color := "c", tool := "pen", brushSize := 2 } }

/-- The roomId.toUpperCase() normalization applied by the join handler
and the REST lookup (ASCII room tokens). -/
def upperStr (s : String) : String :=
  String.mk (s.data.map Char.toUpper)

/-- JavaScript truthiness of the canvasData field (string or null):
null and the empty string are falsy. -/
def canvasTruthy : Option String → Bool
  | none => false
  | some s => s != ""

/-- The member record built by the join handler, with the
userName-or-Anonymous fallback for a falsy display name. -/
def mkUser (sid userName : String) (now : Nat) : UserData :=
  { id := sid, name := if userName = "" then "Anonymous" else userName, joinedAt := now }

/-- Handler of the join-room event (server.ts lines 166-218). -/
def handleJoinRoom (st : ServerState) (now : Nat) (sender roomIdReq userName : String) :
    ServerState × List (String × SMsg) :=
  let upperRoomId := upperStr roomIdReq
  match lookupRoom st.rooms upperRoomId with
  | none =>
      (st, [(sender, SMsg.roomError "Room not found" upperRoomId (roomKeys st.rooms))])
  | some room =>
      let sockRooms2 := sockJoin st.sockRooms sender upperRoomId
      let user := mkUser sender userName now
      let newUsers := room.users ++ [user]
      let rooms2 := adjustRoom st.rooms upperRoomId
        (fun rm => { rm with users := rm.users ++ [user], lastActivity := some now })
      ({ st with rooms := rooms2, sockRooms := sockRooms2 },
       [(sender, SMsg.roomJoined upperRoomId room.name newUsers)]
         ++ (if canvasTruthy room.canvasData then
               [(sender, SMsg.loadCanvas (room.canvasData.getD ""))] else [])
         ++ (sockOthers sockRooms2 upperRoomId sender).map
              (fun x => (x, SMsg.userJoined user newUsers)))

/-- Handler of the clear-canvas event (server.ts lines 243-261). -/
def handleClearCanvas (st : ServerState) (now : Nat) (sender : String) (p : ClearPayload) :
    ServerState × List (String × SMsg) :=
  match extractClearRoomId p with
  | some roomId =>
      let rooms2 := adjustRoom st.rooms roomId
        (fun rm => { rm with canvasData := none, lastActivity := some now })
      ({ st with rooms := rooms2 },
       (sockOthers st.sockRooms roomId sender).map (fun x => (x, SMsg.clearDirective)))
  | none =>
      (st, (st.connected.filter (fun x => x ≠ sender)).map (fun x => (x, SMsg.clearDirective)))

/-- Handler of the save-canvas-state event (server.ts lines 292-303):
store the snapshot on the registered room and refresh its activity. -/
def handleSaveCanvasState (st : ServerState) (now : Nat) (roomId canvasData : String) :
    ServerState × List (String × SMsg) :=
  let rooms2 := adjustRoom st.rooms roomId
    (fun rm => { rm with canvasData := some canvasData, lastActivity := some now })
  ({ st with rooms := rooms2 }, [])

/-- Handler of the undo event (server.ts lines 264-275): pure relay,
no server-side state change. The Option String is the roomId read from
the optional payload. -/
def handleUndoRelay (st : ServerState) (sender : String) (r : Option String) :
    ServerState × List (String × SMsg) :=
  match r with
  | some roomId =>
      (st, (sockOthers st.sockRooms roomId sender).map (fun x => (x, SMsg.undoSignal)))
  | none =>
      (st, (st.connected.filter (fun x => x ≠ sender)).map (fun x => (x, SMsg.undoSignal)))

/-- Handler of the redo event (server.ts lines 278-289). -/
def handleRedoRelay (st : ServerState) (sender : String) (r : Option String) :
    ServerState × List (String × SMsg) :=
  match r with
  | some roomId =>
      (st, (sockOthers st.sockRooms roomId sender).map (fun x => (x, SMsg.redoSignal)))
  | none =>
      (st, (st.connected.filter (fun x => x ≠ sender)).map (fun x => (x, SMsg.redoSignal)))

/-- splice of the first user whose id equals the disconnecting socket. -/
def removeFirstUser : List UserData → String → List UserData
  | [], _ => []
  | u :: us, sid => if u.id = sid then us else u :: removeFirstUser us sid

/-- Handler of the disconnect event (server.ts lines 306-342): scan
every room, remove the first matching member, notify the others, and
collect the rooms that became empty (their deferred cleanup checks are
modelled separately as ServerStep.cleanupFire). -/
def handleDisconnect (st : ServerState) (now : Nat) (sender : String) :
    ServerState × List (String × SMsg) × List String :=
  let touched := st.rooms.filter (fun p => p.2.users.any (fun u => u.id == sender))
  let rooms2 := mapRooms st.rooms (fun _ rm =>
    if rm.users.any (fun u => u.id == sender) then
      { rm with users := removeFirstUser rm.users sender, lastActivity := some now }
    else rm)
  let msgs := touched.flatMap (fun p =>
    (sockOthers st.sockRooms p.1 sender).map
      (fun x => (x, SMsg.userLeft (p.2.users.find? (fun u => u.id == sender))
                      (removeFirstUser p.2.users sender))))
  let sched := (touched.filter (fun p => (removeFirstUser p.2.users sender).isEmpty)).map Prod.fst
  ({ st with rooms := rooms2,
             sockRooms := st.sockRooms.filter (fun q => q.1 ≠ sender),
             connected := st.connected.filter (fun x => x ≠ sender) },
   msgs, sched)

/-- The body of the deferred cleanup timer (server.ts lines 326-335):
re-fetch the room and delete it only if it still exists, still has no
members, and its last activity is more than one hour before the time
the timer fires. -/
def cleanupCheck (st : ServerState) (roomId : String) (now : Nat) : ServerState :=
  match lookupRoom st.rooms roomId with
  | some currentRoom =>
      if currentRoom.users.length = 0 then
        if now - (currentRoom.lastActivity.getD 0) > 3600000 then
          { st with rooms := eraseRoom st.rooms roomId }
        else st
      else st
  | none => st

/-- Client-to-server socket events. canvasState is the event the
client emits on undo/redo; server.ts registers no listener for it. -/
inductive CEvent where
  | joinRoom (roomId userName : String)
  | drawing (p : DrawPayload)
  | clearCanvas (p : ClearPayload)
  | undoEv (roomId : Option String)
  | redoEv (roomId : Option String)
  | saveCanvasState (roomId canvasData : String)
  | canvasState (roomId imageData : String)
  | disconnectEv
deriving DecidableEq, Repr

/-- Dispatch of one inbound socket event to the listener server.ts
registers for it. An event with no registered listener (canvasState)
is dropped by socket.io: no state change, no emission. -/
def serverDispatch (st : ServerState) (now : Nat) (sender : String) :
    CEvent → ServerState × List (String × SMsg)
  | CEvent.joinRoom roomId userName => handleJoinRoom st now sender roomId userName
  | CEvent.drawing p => handleDrawing st now sender p
  | CEvent.clearCanvas p => handleClearCanvas st now sender p
  | CEvent.undoEv r => handleUndoRelay st sender r
  | CEvent.redoEv r => handleRedoRelay st sender r
  | CEvent.saveCanvasState roomId canvasData => handleSaveCanvasState st now roomId canvasData
  | CEvent.canvasState _ _ => (st, [])
  | CEvent.disconnectEv =>
      let r := handleDisconnect st now sender
      (r.1, r.2.1)

/-- One step of the server: either an inbound event from some socket
at some time, or a deferred cleanup timer firing. -/
inductive ServerStep where
  | ev (sender : String) (now : Nat) (e : CEvent)
  | cleanupFire (roomId : String) (now : Nat)
deriving DecidableEq, Repr

def stepServer (st : ServerState) : ServerStep → ServerState
  | ServerStep.ev sender now e => (serverDispatch st now sender e).1
  | ServerStep.cleanupFire roomId now => cleanupCheck st roomId now

def runServer (st : ServerState) (steps : List ServerStep) : ServerState :=
  steps.foldl stepServer st

/-- State of one client Whiteboard component: the rendered surface
(the list of drawing operations shown since the last white fill), the
history array of ImageData captures, and the history cursor (-1 when
the history is empty, as in the useState initialisers). -/
structure ClientState where
  surface : List DrawingData
  history : List (List DrawingData)
  historyIndex : Int
deriving DecidableEq, Repr

def initClient : ClientState :=
  { surface := [], history := [], historyIndex := -1 }

/-- saveToHistory of the Whiteboard component: take the slice up to
the cursor, append the capture of the canvas, drop the oldest entry
once the length passes 50, and point the cursor at the last entry. -/
def saveToHistory (cs : ClientState) : ClientState :=
  let newHistory := (cs.history.take (cs.historyIndex + 1).toNat) ++ [cs.surface]
  let newHistory2 := if newHistory.length > 50 then newHistory.tail else newHistory
  { cs with history := newHistory2, historyIndex := (newHistory2.length : Int) - 1 }

/-- The message a client emits towards the server on undo/redo: the
canvas-state event with the room id and the data-URL capture. -/
inductive ClientEmit where
  | canvasState (roomId : String) (imageData : List DrawingData)
deriving DecidableEq, Repr

/-- undo of the Whiteboard component: when the cursor is positive and
the user may edit, move the cursor back, put the snapshot now under
the cursor on the canvas, and, when a socket and a room are present,
emit the capture as a canvas-state event. -/
def undoClient (cs : ClientState) (canEdit : Bool) (sockRoom : Option String) :
    ClientState × Option ClientEmit :=
  if 0 < cs.historyIndex ∧ canEdit = true then
    let newSurface := (cs.history[(cs.historyIndex - 1).toNat]?).getD []
    let cs2 := { cs with historyIndex := cs.historyIndex - 1, surface := newSurface }
    (cs2, sockRoom.map (fun rid => ClientEmit.canvasState rid cs2.surface))
  else (cs, none)

/-- redo of the Whiteboard component, symmetric to undo. -/
def redoClient (cs : ClientState) (canEdit : Bool) (sockRoom : Option String) :
    ClientState × Option ClientEmit :=
  if cs.historyIndex < (cs.history.length : Int) - 1 ∧ canEdit = true then
    let newSurface := (cs.history[(cs.historyIndex + 1).toNat]?).getD []
    let cs2 := { cs with historyIndex := cs.historyIndex + 1, surface := newSurface }
    (cs2, sockRoom.map (fun rid => ClientEmit.canvasState rid cs2.surface))
  else (cs, none)

/-- clearCanvas of the Whiteboard component. With emitFlag true it is
the local clear action: blocked for viewers, otherwise it fills the
canvas white, emits the clear-canvas event carrying the BARE room id
string, and commits. With emitFlag false it is the handler of a remote
clear directive: it fills white and still commits unconditionally. -/
def clearCanvasClient (cs : ClientState) (canEdit emitFlag : Bool) (sockRoom : Option String) :
    ClientState × Option ClearPayload :=
  if (!canEdit && emitFlag) = true then (cs, none)
  else
    let cs1 := { cs with surface := [] }
    let out := if emitFlag then sockRoom.map (fun rid => ClearPayload.str rid) else none
    (saveToHistory cs1, out)

/-- The operations that can hit one client, local and remote. -/
inductive ClientOp where
  | draw (d : DrawingData)
  | commit
  | undoOp (canEdit : Bool)
  | redoOp (canEdit : Bool)
  | localClear (canEdit : Bool)
  | remoteDrawing (d : DrawingData)
  | remoteClear
  | remoteCanvasState (img : List DrawingData)
deriving DecidableEq, Repr

/-- Effect of one operation on the client state. draw is drawOnCanvas
for a locally drawn operation, commit is the saveToHistory call at
stroke end, remoteDrawing is the drawing listener, remoteClear is the
clear-canvas listener (clearCanvas false), and remoteCanvasState is
the canvas-state listener, which only repaints the canvas. -/
def applyClientOp (cs : ClientState) : ClientOp → ClientState
  | ClientOp.draw d => { cs with surface := cs.surface ++ [d] }
  | ClientOp.commit => saveToHistory cs
  | ClientOp.undoOp canEdit => (undoClient cs canEdit none).1
  | ClientOp.redoOp canEdit => (redoClient cs canEdit none).1
  | ClientOp.localClear canEdit => (clearCanvasClient cs canEdit true none).1
  | ClientOp.remoteDrawing d => { cs with surface := cs.surface ++ [d] }
  | ClientOp.remoteClear => (clearCanvasClient cs true false none).1
  | ClientOp.remoteCanvasState img => { cs with surface := img }

def runClient (cs : ClientState) (ops : List ClientOp) : ClientState :=
  ops.foldl applyClientOp cs

/-- The stated history invariant: at most 50 snapshots, and the cursor
is a valid index, or -1 exactly while the history is empty. -/
def histInvariant (cs : ClientState) : Prop :=
  cs.history.length ≤ 50 ∧
    ((cs.history = [] ∧ cs.historyIndex = -1) ∨
      (0 ≤ cs.historyIndex ∧ cs.historyIndex < (cs.history.length : Int)))

/-- A distinguishable drawing operation, used to watch eviction order. -/
def probe (n : Nat) : DrawingData :=
  { x := n, y := 0, color := "c", tool := "pen", brushSize := 1 }

/-- Sixty locally completed edits: each draws one probe operation and
commits the surface, as stopDrawing does. -/
def commit60Ops : List ClientOp :=
  (List.range 60).flatMap (fun i => [ClientOp.draw (probe (i + 1)), ClientOp.commit])

/-- The identifier generator of server.ts (timestamp plus random bits)
is abstracted as a stream of candidate tokens; the retry loop of the
creation endpoint walks the stream. -/
def pickFrom (rooms : List (String × RoomData)) (gen : Nat → String) :
    Nat → String → Nat → String
  | _, cand, 0 => cand
  | attempts, cand, fuel + 1 =>
      if hasRoom rooms cand then pickFrom rooms gen (attempts + 1) (gen (attempts + 1)) fuel
      else cand

/-- The retry loop of POST /api/rooms (server.ts lines 99-104): start
from one candidate and retry while the candidate is taken, at most 10
times. -/
def pickRoomId (rooms : List (String × RoomData)) (gen : Nat → String) : String :=
  pickFrom rooms gen 0 (gen 0) 10

/-- The JSON body answered by POST /api/rooms on the success path. -/
structure CreateResp where
  roomId : String
  roomName : String
  totalRooms : Nat
deriving DecidableEq, Repr

/-- POST /api/rooms (server.ts lines 96-131): pick an identifier with
the bounded retry loop, then unconditionally insert a fresh empty room
under it and answer success. -/
def createRoom (rooms : List (String × RoomData)) (gen : Nat → String) (now : Nat)
    (roomName : Option String) (isPriv : Option Bool) :
    List (String × RoomData) × CreateResp :=
  let roomId := pickRoomId rooms gen
  let name := match roomName with
    | some s => if s = "" then "Room " ++ roomId else s
    | none => "Room " ++ roomId
  let newRoom : RoomData :=
    { id := roomId, name := name, isPrivate := isPriv.getD false, createdAt := now,
      users := [], canvasData := none, lastActivity := some now }
  let rooms2 := setRoom rooms roomId newRoom
  (rooms2, { roomId := roomId, roomName := name, totalRooms := rooms2.length })

def stEmpty : ServerState := { rooms := [], sockRooms := [], connected := ["a"] }

def roomIdle : RoomData :=
  { id := "R1", name := "w", isPrivate := false, createdAt := 0,
    users := [], canvasData := none, lastActivity := some 0 }

def stIdle : ServerState :=
  { rooms := [("R1", roomIdle)], sockRooms := [], connected := [] }

def stFresh : ServerState :=
  { rooms := [("R1", { roomIdle with lastActivity := some 600 })],
    sockRooms := [], connected := [] }

def oldRoomC2 : RoomData :=
  { id := "AAAAAA", name := "Old", isPrivate := false, createdAt := 0,
    users := [{ id := "u1", name := "alice", joinedAt := 0 }],
    canvasData := some "pic", lastActivity := some 0 }

def roomC7 : RoomData :=
  { id := "R1", name := "w", isPrivate := false, createdAt := 0,
    users := [{ id := "b", name := "bob", joinedAt := 0 }],
    canvasData := none, lastActivity := some 0 }

def stC7 : ServerState :=
  { rooms := [("R1", roomC7)], sockRooms := [("b", "R1")], connected := ["b", "x"] }

def pC7 : DrawPayload := { roomId := some "R1", d := probe 1 }

def roomC8 : RoomData :=
  { id := "R1", name := "w", isPrivate := false, createdAt := 0,
    users := [{ id := "a", name := "alice", joinedAt := 0 },
              { id := "b", name := "bob", joinedAt := 0 }],
    canvasData := some "pic", lastActivity := some 0 }

def stC8 : ServerState :=
  { rooms := [("R1", roomC8)],
    sockRooms := [("a", "R1"), ("b", "R1")],
    connected := ["a", "b", "c"] }

def snapOne : List DrawingData := [probe 1]

def snapTwo : List DrawingData := [probe 1, probe 2]

def csUndo : ClientState :=
  { surface := snapTwo, history := [snapOne, snapTwo], historyIndex := 1 }

def stC6 : ServerState :=
  { rooms := [("R1", roomC8)],
    sockRooms := [("a", "R1"), ("b", "R1")],
    connected := ["a", "b"] }

def roomC5 : RoomData :=
  { id := "R1", name := "w", isPrivate := false, createdAt := 0,
    users := [{ id := "a", name := "alice", joinedAt := 0 }],
    canvasData := none, lastActivity := some 0 }

def stC5 : ServerState :=
  { rooms := [("R1", roomC5)], sockRooms := [("a", "R1")], connected := ["a", "b"] }

/-- The surface snapshot stored for roomId stays pinned at s. -/
def canvasPinned (roomId s : String) (st : ServerState) : Prop :=
  ∀ room, lookupRoom st.rooms roomId = some room → room.canvasData = some s

/-- Whether a step clears or saves the surface of the given room. -/
def touchesSurface (roomId : String) : ServerStep → Bool
  | ServerStep.ev _ _ (CEvent.clearCanvas p) => decide (extractClearRoomId p = some roomId)
  | ServerStep.ev _ _ (CEvent.saveCanvasState r _) => decide (r = roomId)
  | _ => false

/-- State of the server after a save-surface event for roomId followed
by a list of further steps. -/
def afterSave (st0 : ServerState) (t0 : Nat) (saver roomId s : String)
    (steps : List ServerStep) : ServerState :=
  runServer (serverDispatch st0 t0 saver (CEvent.saveCanvasState roomId s)).1 steps

def roomW : RoomData :=
  { id := "R1", name := "w", isPrivate := false, createdAt := 0,
    users := [{ id := "a", name := "alice", joinedAt := 0 }],
    canvasData := none, lastActivity := some 0 }

def stW0 : ServerState :=
  { rooms := [("R1", roomW)], sockRooms := [("a", "R1")], connected := ["a", "b"] }

def stepsW : List ServerStep :=
  [ServerStep.ev "a" 2 (CEvent.drawing { roomId := some "R1", d := probe 3 })]

def roomW2 : RoomData :=
  { roomW with canvasData := some "snap", lastActivity := some 2 }

theorem lookupRoom_mapRooms (m : List (String × RoomData))
    (f : String → RoomData → RoomData) (j : String) :
    lookupRoom (mapRooms m f) j = (lookupRoom m j).map (f j) := by
  induction m with
  | nil => rfl
  | cons p ps ih =>
      by_cases h : p.1 = j
      · simp [mapRooms, lookupRoom, h] at *
      · simp [mapRooms, lookupRoom, h] at *
        exact ih

theorem lookupRoom_adjust (m : List (String × RoomData)) (k : String)
    (g : RoomData → RoomData) (j : String) :
    lookupRoom (adjustRoom m k g) j =
      if j = k then (lookupRoom m j).map g else lookupRoom m j := by
  rw [adjustRoom, lookupRoom_mapRooms]
  by_cases h : j = k
  · simp [h]
  · simp [h]

theorem lookupRoom_erase (m : List (String × RoomData)) (k j : String) :
    lookupRoom (eraseRoom m k) j =
      if j = k then none else lookupRoom m j := by
  induction m with
  | nil => simp [eraseRoom, lookupRoom]
  | cons p ps ih =>
      by_cases hp : p.1 = k
      · by_cases hj : j = k
        · subst hj
          simp [eraseRoom, hp, ih]
        · have hkj : ¬ k = j := fun he => hj he.symm
          have hpj : p.1 ≠ j := fun he => hj (by rw [← he, hp])
          simp [eraseRoom, lookupRoom, hp, hj, hkj, hpj, ih]
      · by_cases hpj : p.1 = j
        · have hj : j ≠ k := fun he => hp (by rw [hpj, he])
          simp [eraseRoom, lookupRoom, hp, hpj, hj]
        · simp [eraseRoom, lookupRoom, hp, hpj, ih]

theorem mem_sockOthers (sr : List (String × String)) (roomName sender x : String) :
    x ∈ sockOthers sr roomName sender ↔ (x, roomName) ∈ sr ∧ x ≠ sender := by
  constructor
  · intro hx
    rcases List.mem_filter.mp hx with ⟨hm, hne⟩
    rcases List.mem_map.mp hm with ⟨q, hq, hqx⟩
    rcases List.mem_filter.mp hq with ⟨hql, hqr⟩
    have hr : q.2 = roomName := by simpa using hqr
    refine ⟨?_, by simpa using hne⟩
    have : q = (x, roomName) := by
      cases q
      simp_all
    exact this ▸ hql
  · rintro ⟨hm, hne⟩
    refine List.mem_filter.mpr ⟨?_, by simpa using hne⟩
    refine List.mem_map.mpr ⟨(x, roomName), ?_, rfl⟩
    exact List.mem_filter.mpr ⟨hm, by simp⟩

/-- C1: a drawing event that carries a roomId is relayed to exactly the
other members of that socket.io room (the sender receives nothing) and
the registered room of that id gets its last-activity refreshed, all
other rooms untouched; a drawing event without a roomId is broadcast to
every other connection of the pool and changes no state. -/
theorem drawing_event_relay (st : ServerState) (now : Nat) (sender : String)
    (p : DrawPayload) (r : String) :
    (p.roomId = some r →
      (handleDrawing st now sender p).2 =
        (sockOthers st.sockRooms r sender).map (fun x => (x, SMsg.drawing p)) ∧
      (∀ x, x ∈ sockOthers st.sockRooms r sender ↔ (x, r) ∈ st.sockRooms ∧ x ≠ sender) ∧
      lookupRoom (handleDrawing st now sender p).1.rooms r =
        (lookupRoom st.rooms r).map (fun rm => { rm with lastActivity := some now }) ∧
      (∀ j, j ≠ r → lookupRoom (handleDrawing st now sender p).1.rooms j =
        lookupRoom st.rooms j) ∧
      (handleDrawing st now sender p).1.sockRooms = st.sockRooms ∧
      (handleDrawing st now sender p).1.connected = st.connected) ∧
    (p.roomId = none →
      handleDrawing st now sender p =
        (st, (st.connected.filter (fun x => x ≠ sender)).map
          (fun x => (x, SMsg.drawing p)))) := by
  constructor
  · intro hr
    refine ⟨by simp [handleDrawing, hr], fun x => mem_sockOthers _ _ _ _, ?_, ?_, ?_, ?_⟩
    · simp [handleDrawing, hr, lookupRoom_adjust]
    · intro j hj
      simp [handleDrawing, hr, lookupRoom_adjust, hj]
    · simp [handleDrawing, hr]
    · simp [handleDrawing, hr]
  · intro hr
    simp [handleDrawing, hr]

theorem drawing_event_relay_check :
    (handleDrawing stA 5 "a" pA).2 = [("b", SMsg.drawing pA)] ∧
    lookupRoom (handleDrawing stA 5 "a" pA).1.rooms "R1" =
      some { roomA with lastActivity := some 5 } := by
  have h := (drawing_event_relay stA 5 "a" pA "R1").1 rfl
  refine ⟨?_, ?_⟩
  · rw [h.1]; decide
  · rw [h.2.2.1]; decide

/-- C10: a join request naming an unregistered identifier answers the
caller with a single room-error message carrying the normalised room
id and the list of currently-known identifiers, and does nothing
else: the server state is unchanged and no other connection receives
anything. -/
theorem join_unknown_room_error (st : ServerState) (now : Nat)
    (sender roomIdReq userName : String)
    (h : lookupRoom st.rooms (upperStr roomIdReq) = none) :
    handleJoinRoom st now sender roomIdReq userName =
      (st, [(sender, SMsg.roomError "Room not found" (upperStr roomIdReq)
              (roomKeys st.rooms))]) := by
  simp [handleJoinRoom, h]

/-- C10 witness: joining the empty registry with the id zz yields the
room-error for ZZ and nothing else. -/
theorem join_unknown_room_error_check :
    handleJoinRoom stEmpty 1 "a" "zz" "zed" =
      (stEmpty, [("a", SMsg.roomError "Room not found" "ZZ" [])]) := by
  have h := join_unknown_room_error stEmpty 1 "a" "zz" "zed" (by decide)
  rw [h]; decide

/-- C3: when a deferred cleanup timer fires it re-checks the room: the
room survives if it has a member again, or if its last activity is
within the one-hour grace; it is deleted exactly when it still has
zero members and its last activity is more than the grace duration in
the past. -/
theorem cleanup_grace_period (st : ServerState) (roomId : String) (fireTime : Nat)
    (room : RoomData) (hroom : lookupRoom st.rooms roomId = some room) :
    (room.users ≠ [] → cleanupCheck st roomId fireTime = st) ∧
    (fireTime - room.lastActivity.getD 0 ≤ 3600000 → cleanupCheck st roomId fireTime = st) ∧
    (room.users = [] → fireTime - room.lastActivity.getD 0 > 3600000 →
      cleanupCheck st roomId fireTime = { st with rooms := eraseRoom st.rooms roomId }) := by
  refine ⟨?_, ?_, ?_⟩
  · intro hu
    have hlen : ¬ room.users.length = 0 := fun he => hu (List.length_eq_zero.mp he)
    simp [cleanupCheck, hroom, hlen]
  · intro hle
    have hnot : ¬ (fireTime - room.lastActivity.getD 0 > 3600000) := not_lt.mpr hle
    by_cases hlenz : room.users.length = 0
    · simp [cleanupCheck, hroom, hlenz, hnot]
    · simp [cleanupCheck, hroom, hlenz]
  · intro hu hgt
    simp [cleanupCheck, hroom, hu, hgt]

/-- C3 witness: a stale empty room is deleted when the timer fires one
hour plus two milliseconds after its last activity, while a room whose
activity was refreshed during the grace window survives the fire. -/
theorem cleanup_grace_period_check :
    cleanupCheck stIdle "R1" 3600002 = { stIdle with rooms := [] } ∧
    cleanupCheck stFresh "R1" 3600001 = stFresh := by
  constructor
  · have h := cleanup_grace_period stIdle "R1" 3600002 roomIdle (by decide)
    exact h.2.2 rfl (by decide)
  · have h := cleanup_grace_period stFresh "R1" 3600001
      { roomIdle with lastActivity := some 600 } (by decide)
    exact h.2.1 (by decide)

/-- C2: the code violates the claim. With the candidate stream stuck
on a taken identifier, the retry loop exhausts its 10 retries and the
endpoint still registers a fresh empty room under that identifier,
silently overwriting the room that was there, and answers success with
the colliding identifier instead of reporting an error. -/
theorem createRoom_exhausted_overwrites :
    (createRoom [("AAAAAA", oldRoomC2)] (fun _ => "AAAAAA") 50 none none).2.roomId
      = "AAAAAA" ∧
    lookupRoom (createRoom [("AAAAAA", oldRoomC2)] (fun _ => "AAAAAA") 50 none none).1
        "AAAAAA" =
      some { id := "AAAAAA", name := "Room AAAAAA", isPrivate := false, createdAt := 50,
             users := [], canvasData := none, lastActivity := some 50 } ∧
    (createRoom [("AAAAAA", oldRoomC2)] (fun _ => "AAAAAA") 50 none none).1.length = 1 := by
  decide

/-- C7 counterexample: socket x is connected but is not a member of
room R1, yet its drawing event naming R1 is relayed to member b and
the last-activity of R1 is refreshed, so the gateway does not enforce
membership before relay. -/
theorem drawing_nonmember_relayed :
    (("x", "R1") ∉ stC7.sockRooms) ∧
    (handleDrawing stC7 5 "x" pC7).2 = [("b", SMsg.drawing pC7)] ∧
    lookupRoom (handleDrawing stC7 5 "x" pC7).1.rooms "R1" =
      some { roomC7 with lastActivity := some 5 } ∧
    (handleDrawing stC7 5 "x" pC7).1 ≠ stC7 := by decide

/-- C7 (amended): the gateway performs no membership check before
relay: a drawing event naming room r is relayed to the other members
of r and refreshes the last-activity of the registered room r even
when the sending connection is not a member of r. -/
theorem drawing_relay_ignores_membership (st : ServerState) (now : Nat) (sender : String)
    (p : DrawPayload) (r : String) (hr : p.roomId = some r)
    (hnm : (sender, r) ∉ st.sockRooms) :
    (handleDrawing st now sender p).2 =
      (sockOthers st.sockRooms r sender).map (fun x => (x, SMsg.drawing p)) ∧
    lookupRoom (handleDrawing st now sender p).1.rooms r =
      (lookupRoom st.rooms r).map (fun rm => { rm with lastActivity := some now }) := by
  constructor
  · simp [handleDrawing, hr]
  · simp [handleDrawing, hr, lookupRoom_adjust]

/-- C7 witness for the amended statement, at the same concrete state
as the counterexample. -/
theorem drawing_relay_ignores_membership_check :
    (handleDrawing stC7 5 "x" pC7).2 = [("b", SMsg.drawing pC7)] := by
  have h := drawing_relay_ignores_membership stC7 5 "x" pC7 "R1" rfl (by decide)
  rw [h.1]; decide

/-- C8: the end-to-end claim fails. The local clear action of a client
joined to R1 emits the clear-canvas event with the bare id string; the
gateway reads the roomId property of that string, gets undefined, and
therefore broadcasts the clear directive to every other connection of
the pool (here also to c, which is not in the room) while leaving the
stored snapshot and the last-activity of R1 untouched. -/
theorem client_clear_misroutes :
    (clearCanvasClient initClient true true (some "R1")).2 = some (ClearPayload.str "R1") ∧
    extractClearRoomId (ClearPayload.str "R1") = none ∧
    serverDispatch stC8 9 "a" (CEvent.clearCanvas (ClearPayload.str "R1")) =
      (stC8, [("b", SMsg.clearDirective), ("c", SMsg.clearDirective)]) := by decide

/-- C6: the client side behaves as claimed - undo decrements the
cursor, repaints the snapshot now at the cursor and emits it as a
canvas-state event - but the server registers no listener for
canvas-state, so the event is dropped: no state change and no message
to any other member. The full-state update is never delivered. -/
theorem undo_update_never_delivered :
    (undoClient csUndo true (some "R1")).1.historyIndex = 0 ∧
    (undoClient csUndo true (some "R1")).1.surface = snapOne ∧
    (undoClient csUndo true (some "R1")).2 =
      some (ClientEmit.canvasState "R1" snapOne) ∧
    serverDispatch stC6 9 "a" (CEvent.canvasState "R1" "dataurl") = (stC6, []) := by decide

/-- C9 counterexample: a client holding one snapshot that handles a
remote clear directive ends with two snapshots: handling a remote
event changed the history length. -/
theorem remote_clear_grows_history :
    (runClient initClient [ClientOp.commit]).history.length = 1 ∧
    (runClient initClient [ClientOp.commit, ClientOp.remoteClear]).history.length = 2 := by
  decide

/-- C9 (amended): relayed drawing events and remote canvas-state
updates leave the history sequence and the cursor unchanged, but a
remote clear directive runs clearCanvas(false), which commits the
cleared surface to the local history exactly like a local commit. -/
theorem remote_events_history_effect (cs : ClientState) (d : DrawingData)
    (img : List DrawingData) :
    (applyClientOp cs (ClientOp.remoteDrawing d)).history = cs.history ∧
    (applyClientOp cs (ClientOp.remoteDrawing d)).historyIndex = cs.historyIndex ∧
    (applyClientOp cs (ClientOp.remoteCanvasState img)).history = cs.history ∧
    (applyClientOp cs (ClientOp.remoteCanvasState img)).historyIndex = cs.historyIndex ∧
    applyClientOp cs ClientOp.remoteClear = saveToHistory { cs with surface := [] } := by
  refine ⟨rfl, rfl, rfl, rfl, ?_⟩
  simp [applyClientOp, clearCanvasClient]

theorem histInvariant_last (cs : ClientState) (l : List (List DrawingData))
    (h50 : l.length ≤ 50) (hne : l ≠ []) :
    histInvariant { cs with history := l, historyIndex := (l.length : Int) - 1 } := by
  have hpos : 0 < l.length := List.length_pos.mpr hne
  refine ⟨h50, Or.inr ⟨?_, ?_⟩⟩
  · show (0 : Int) ≤ (l.length : Int) - 1
    omega
  · show (l.length : Int) - 1 < (l.length : Int)
    omega

theorem saveToHistory_invariant (cs : ClientState) (h : histInvariant cs) :
    histInvariant (saveToHistory cs) := by
  have hlen := h.1
  have hmin := Nat.min_le_right ((cs.historyIndex + 1).toNat) cs.history.length
  set nh := (cs.history.take (cs.historyIndex + 1).toNat) ++ [cs.surface] with hnhdef
  have hlennh : nh.length = min ((cs.historyIndex + 1).toNat) cs.history.length + 1 := by
    simp [hnhdef]
  show histInvariant
    { cs with history := if nh.length > 50 then nh.tail else nh,
              historyIndex := ((if nh.length > 50 then nh.tail else nh).length : Int) - 1 }
  by_cases hgt : nh.length > 50
  · simp only [if_pos hgt]
    apply histInvariant_last
    · rw [List.length_tail]; omega
    · have hpos : 0 < nh.tail.length := by rw [List.length_tail]; omega
      exact List.length_pos.mp hpos
  · simp only [if_neg hgt]
    apply histInvariant_last
    · omega
    · simp [hnhdef]

theorem undoClient_invariant (cs : ClientState) (ce : Bool) (sr : Option String)
    (h : histInvariant cs) : histInvariant (undoClient cs ce sr).1 := by
  obtain ⟨hlen, hcur⟩ := h
  by_cases hc : 0 < cs.historyIndex ∧ ce = true
  · have hpos := hc.1
    have hred : (undoClient cs ce sr).1 =
        { cs with historyIndex := cs.historyIndex - 1,
                  surface := (cs.history[(cs.historyIndex - 1).toNat]?).getD [] } := by
      simp [undoClient, hc]
    rw [hred]
    refine ⟨hlen, Or.inr ⟨?_, ?_⟩⟩
    · show (0 : Int) ≤ cs.historyIndex - 1
      omega
    · show cs.historyIndex - 1 < (cs.history.length : Int)
      rcases hcur with ⟨_, hie⟩ | ⟨_, hlt⟩
      · omega
      · omega
  · have hred : (undoClient cs ce sr).1 = cs := by simp [undoClient, hc]
    rw [hred]
    exact ⟨hlen, hcur⟩

theorem redoClient_invariant (cs : ClientState) (ce : Bool) (sr : Option String)
    (h : histInvariant cs) : histInvariant (redoClient cs ce sr).1 := by
  obtain ⟨hlen, hcur⟩ := h
  by_cases hc : cs.historyIndex < (cs.history.length : Int) - 1 ∧ ce = true
  · have hlt := hc.1
    have hred : (redoClient cs ce sr).1 =
        { cs with historyIndex := cs.historyIndex + 1,
                  surface := (cs.history[(cs.historyIndex + 1).toNat]?).getD [] } := by
      simp [redoClient, hc]
    rw [hred]
    rcases hcur with ⟨hhe, hie⟩ | ⟨h0, hlt2⟩
    · have hlen0 : cs.history.length = 0 := by rw [hhe]; rfl
      exact absurd hlt (by omega)
    · refine ⟨hlen, Or.inr ⟨?_, ?_⟩⟩
      · show (0 : Int) ≤ cs.historyIndex + 1
        omega
      · show cs.historyIndex + 1 < (cs.history.length : Int)
        omega
  · have hred : (redoClient cs ce sr).1 = cs := by simp [redoClient, hc]
    rw [hred]
    exact ⟨hlen, hcur⟩

theorem clearCanvasClient_invariant (cs : ClientState) (ce ef : Bool)
    (sr : Option String) (h : histInvariant cs) :
    histInvariant (clearCanvasClient cs ce ef sr).1 := by
  by_cases hb : (!ce && ef) = true
  · have hred : (clearCanvasClient cs ce ef sr).1 = cs := by simp [clearCanvasClient, hb]
    rw [hred]
    exact h
  · have hred : (clearCanvasClient cs ce ef sr).1 =
        saveToHistory { cs with surface := [] } := by
      simp [clearCanvasClient, hb]
    rw [hred]
    exact saveToHistory_invariant { cs with surface := [] } h

theorem applyClientOp_invariant (cs : ClientState) (op : ClientOp)
    (h : histInvariant cs) : histInvariant (applyClientOp cs op) := by
  cases op with
  | draw d => exact h
  | commit => exact saveToHistory_invariant cs h
  | undoOp ce => exact undoClient_invariant cs ce none h
  | redoOp ce => exact redoClient_invariant cs ce none h
  | localClear ce => exact clearCanvasClient_invariant cs ce true none h
  | remoteDrawing d => exact h
  | remoteClear => exact clearCanvasClient_invariant cs true false none h
  | remoteCanvasState img => exact h

theorem runClient_invariant_aux (ops : List ClientOp) :
    ∀ cs : ClientState, histInvariant cs → histInvariant (runClient cs ops) := by
  induction ops with
  | nil => intro cs h; exact h
  | cons op rest ih =>
      intro cs h
      exact ih (applyClientOp cs op) (applyClientOp_invariant cs op h)

/-- C4: every sequence of client operations starting from the empty
history keeps the history at 50 snapshots or fewer with the cursor a
valid index into it (or -1 exactly while it is empty); and sixty
successive locally committed edits leave exactly 50 snapshots - the
ten oldest evicted in arrival order, each surviving entry being the
surface as of commits 11 through 60 - with the cursor on the last
entry. -/
theorem history_invariant_and_bound :
    (∀ ops : List ClientOp, histInvariant (runClient initClient ops)) ∧
    (runClient initClient commit60Ops).history.length = 50 ∧
    (runClient initClient commit60Ops).historyIndex = 49 ∧
    (runClient initClient commit60Ops).history =
      (List.range 50).map (fun k => (List.range (k + 11)).map (fun j => probe (j + 1))) := by
  refine ⟨?_, ?_, ?_, ?_⟩
  · intro ops
    exact runClient_invariant_aux ops initClient (by simp [histInvariant, initClient])
  · decide
  · decide
  · decide

/-- C5 counterexample: member a of registered room R1 saves the
empty-string snapshot; it is stored; afterwards b joins successfully
(room-joined is emitted and the member is appended) yet the join emits
NO load-canvas message, because the gateway replays the stored
snapshot only when it is truthy and the empty string is falsy. -/
theorem empty_snapshot_not_replayed :
    (lookupRoom (serverDispatch stC5 3 "a" (CEvent.saveCanvasState "R1" "")).1.rooms
        "R1").map RoomData.canvasData = some (some "") ∧
    serverDispatch (serverDispatch stC5 3 "a" (CEvent.saveCanvasState "R1" "")).1 5 "b"
        (CEvent.joinRoom "R1" "bob") =
      ({ rooms := [("R1",
           { id := "R1", name := "w", isPrivate := false, createdAt := 0,
             users := [{ id := "a", name := "alice", joinedAt := 0 },
                       { id := "b", name := "bob", joinedAt := 5 }],
             canvasData := some "", lastActivity := some 5 })],
         sockRooms := [("a", "R1"), ("b", "R1")],
         connected := ["a", "b"] },
       [("b", SMsg.roomJoined "R1" "w"
           [{ id := "a", name := "alice", joinedAt := 0 },
            { id := "b", name := "bob", joinedAt := 5 }]),
        ("a", SMsg.userJoined { id := "b", name := "bob", joinedAt := 5 }
           [{ id := "a", name := "alice", joinedAt := 0 },
            { id := "b", name := "bob", joinedAt := 5 }])]) := by decide

theorem canvasPinned_of_adjust (roomId s : String) (m : List (String × RoomData))
    (k : String) (g : RoomData → RoomData)
    (hg : k = roomId → ∀ r, (g r).canvasData = r.canvasData)
    (hP : ∀ room, lookupRoom m roomId = some room → room.canvasData = some s) :
    ∀ room, lookupRoom (adjustRoom m k g) roomId = some room →
      room.canvasData = some s := by
  intro room hl
  rw [lookupRoom_adjust] at hl
  by_cases hr : roomId = k
  · rw [if_pos hr] at hl
    cases hg0 : lookupRoom m roomId with
    | none => rw [hg0] at hl; cases hl
    | some r0 =>
        rw [hg0] at hl
        have heq : g r0 = room := Option.some.inj hl
        rw [← heq, hg hr.symm r0]
        exact hP r0 hg0
  · rw [if_neg hr] at hl
    exact hP room hl

theorem canvasPinned_of_mapRooms (roomId s : String) (m : List (String × RoomData))
    (f : String → RoomData → RoomData)
    (hf : ∀ j r, (f j r).canvasData = r.canvasData)
    (hP : ∀ room, lookupRoom m roomId = some room → room.canvasData = some s) :
    ∀ room, lookupRoom (mapRooms m f) roomId = some room →
      room.canvasData = some s := by
  intro room hl
  rw [lookupRoom_mapRooms] at hl
  cases hg0 : lookupRoom m roomId with
  | none => rw [hg0] at hl; cases hl
  | some r0 =>
      rw [hg0] at hl
      have heq : f roomId r0 = room := Option.some.inj hl
      rw [← heq, hf roomId r0]
      exact hP r0 hg0

theorem stepServer_preserves_canvas (roomId s : String) (stp : ServerStep)
    (hns : touchesSurface roomId stp = false) (st : ServerState)
    (hP : canvasPinned roomId s st) : canvasPinned roomId s (stepServer st stp) := by
  cases stp with
  | ev sender now e =>
      cases e with
      | joinRoom rid uname =>
          intro rm hl
          cases hjr : lookupRoom st.rooms (upperStr rid) with
          | none =>
              simp only [stepServer, serverDispatch, handleJoinRoom, hjr] at hl
              exact hP rm hl
          | some r0 =>
              simp only [stepServer, serverDispatch, handleJoinRoom, hjr] at hl
              exact canvasPinned_of_adjust roomId s st.rooms (upperStr rid)
                (fun q => { q with users := q.users ++ [mkUser sender uname now], lastActivity := some now })
                (fun _ r => rfl) hP rm hl
      | drawing p =>
          intro rm hl
          cases hrid : p.roomId with
          | some r' =>
              simp only [stepServer, serverDispatch, handleDrawing, hrid] at hl
              exact canvasPinned_of_adjust roomId s st.rooms r'
                (fun q => { q with lastActivity := some now })
                (fun _ r => rfl) hP rm hl
          | none =>
              simp only [stepServer, serverDispatch, handleDrawing, hrid] at hl
              exact hP rm hl
      | clearCanvas p =>
          intro rm hl
          have hne : ¬ extractClearRoomId p = some roomId := by
            simpa [touchesSurface] using hns
          cases hcp : extractClearRoomId p with
          | some r' =>
              simp only [stepServer, serverDispatch, handleClearCanvas, hcp] at hl
              have hkr : ¬ r' = roomId := fun he => hne (by rw [hcp, he])
              refine canvasPinned_of_adjust roomId s st.rooms r'
                (fun q => { q with canvasData := none, lastActivity := some now })
                ?_ hP rm hl
              intro hk
              exact absurd hk hkr
          | none =>
              simp only [stepServer, serverDispatch, handleClearCanvas, hcp] at hl
              exact hP rm hl
      | undoEv r =>
          intro rm hl
          cases r with
          | none => exact hP rm hl
          | some rid => exact hP rm hl
      | redoEv r =>
          intro rm hl
          cases r with
          | none => exact hP rm hl
          | some rid => exact hP rm hl
      | saveCanvasState r d =>
          intro rm hl
          have hne : ¬ r = roomId := by simpa [touchesSurface] using hns
          simp only [stepServer, serverDispatch, handleSaveCanvasState] at hl
          refine canvasPinned_of_adjust roomId s st.rooms r
            (fun q => { q with canvasData := some d, lastActivity := some now })
            ?_ hP rm hl
          intro hk
          exact absurd hk hne
      | canvasState r d =>
          intro rm hl
          exact hP rm hl
      | disconnectEv =>
          intro rm hl
          simp only [stepServer, serverDispatch, handleDisconnect] at hl
          refine canvasPinned_of_mapRooms roomId s st.rooms
            (fun _ q => if q.users.any (fun u => u.id == sender) = true then { q with users := removeFirstUser q.users sender, lastActivity := some now } else q)
            ?_ hP rm hl
          intro j r
          by_cases hu : r.users.any (fun u => u.id == sender) = true
          · simp only [if_pos hu]
          · simp only [if_neg hu]
  | cleanupFire r now =>
      intro rm hl
      cases hcr : lookupRoom st.rooms r with
      | none =>
          simp only [stepServer, cleanupCheck, hcr] at hl
          exact hP rm hl
      | some cr =>
          simp only [stepServer, cleanupCheck, hcr] at hl
          by_cases h1 : cr.users.length = 0
          · rw [if_pos h1] at hl
            by_cases h2 : now - cr.lastActivity.getD 0 > 3600000
            · rw [if_pos h2] at hl
              simp only [lookupRoom_erase] at hl
              by_cases hr : roomId = r
              · rw [if_pos hr] at hl; cases hl
              · rw [if_neg hr] at hl; exact hP rm hl
            · rw [if_neg h2] at hl; exact hP rm hl
          · rw [if_neg h1] at hl; exact hP rm hl

theorem runServer_preserves_canvas (roomId s : String) (steps : List ServerStep) :
    ∀ st : ServerState, (∀ stp ∈ steps, touchesSurface roomId stp = false) →
      canvasPinned roomId s st → canvasPinned roomId s (runServer st steps) := by
  induction steps with
  | nil => intro st _ hP; exact hP
  | cons stp rest ih =>
      intro st hsteps hP
      exact ih (stepServer st stp)
        (fun q hq => hsteps q (List.mem_cons_of_mem _ hq))
        (stepServer_preserves_canvas roomId s stp (hsteps stp (List.mem_cons_self _ _)) st hP)

theorem saveCanvasState_pins (st : ServerState) (t0 : Nat) (roomId s : String) :
    canvasPinned roomId s (handleSaveCanvasState st t0 roomId s).1 := by
  intro rm hl
  simp only [handleSaveCanvasState] at hl
  rw [lookupRoom_adjust, if_pos rfl] at hl
  cases hg : lookupRoom st.rooms roomId with
  | none => rw [hg] at hl; cases hl
  | some r0 =>
      rw [hg] at hl
      have heq := Option.some.inj hl
      rw [← heq]

/-- C5 (amended): after save-surface-state stores a NON-EMPTY snapshot
s for a registered room, and no later step clears or saves the
surface of that room, every subsequent successful join whose normalised requested
id is that room emits to the joiner the room-joined confirmation and a
load-canvas message carrying exactly s, and appends the new member to
the room. The restriction to a non-empty snapshot is forced by the
code: the gateway replays the stored snapshot only when it is truthy. -/
theorem save_then_join_replays_state
    (st0 : ServerState) (t0 t1 : Nat) (saver joiner : String)
    (roomId s userName reqId : String)
    (room0 : RoomData) (hreg : lookupRoom st0.rooms roomId = some room0)
    (hs : s ≠ "")
    (steps : List ServerStep)
    (hsteps : ∀ stp ∈ steps, touchesSurface roomId stp = false)
    (hreq : upperStr reqId = roomId) :
    ∀ room2, lookupRoom (afterSave st0 t0 saver roomId s steps).rooms roomId = some room2 →
      (joiner, SMsg.loadCanvas s) ∈
        (handleJoinRoom (afterSave st0 t0 saver roomId s steps) t1 joiner reqId userName).2 ∧
      (joiner, SMsg.roomJoined roomId room2.name
          (room2.users ++ [mkUser joiner userName t1])) ∈
        (handleJoinRoom (afterSave st0 t0 saver roomId s steps) t1 joiner reqId userName).2 ∧
      lookupRoom
          (handleJoinRoom (afterSave st0 t0 saver roomId s steps) t1 joiner reqId userName).1.rooms
          roomId =
        some { room2 with users := room2.users ++ [mkUser joiner userName t1], lastActivity := some t1 } := by
  intro room2 hlook
  have hpin : canvasPinned roomId s (afterSave st0 t0 saver roomId s steps) := by
    apply runServer_preserves_canvas roomId s steps _ hsteps
    exact saveCanvasState_pins st0 t0 roomId s
  have hcd : room2.canvasData = some s := hpin room2 hlook
  have hlook2 : lookupRoom (afterSave st0 t0 saver roomId s steps).rooms (upperStr reqId)
      = some room2 := by rw [hreq]; exact hlook
  refine ⟨?_, ?_, ?_⟩
  · simp only [handleJoinRoom, hlook2]
    simp [canvasTruthy, hcd, hs]
  · simp only [handleJoinRoom, hlook2]
    simp [hreq]
  · simp only [handleJoinRoom, hlook2]
    rw [hreq, lookupRoom_adjust, if_pos rfl, hlook]
    rfl

/-- C5 witness for the amended statement: save snap, let a drawing
event intervene, then join with the lower-case request id r1: the
joiner receives load-canvas snap. -/
theorem save_then_join_replays_state_check :
    ("b", SMsg.loadCanvas "snap") ∈
      (handleJoinRoom (afterSave stW0 1 "a" "R1" "snap" stepsW) 3 "b" "r1" "bob").2 := by
  have h := save_then_join_replays_state stW0 1 3 "a" "b" "R1" "snap" "bob" "r1" roomW
    (by decide) (by decide) stepsW (by decide) (by decide)
  exact (h roomW2 (by decide)).1
